import Mathlib

/-!
Verification of the deep-research agent workflow (src/graph.ts, src/nodes/plan.ts,
src/nodes/search.ts, src/nodes/evaluate.ts, src/nodes/write.ts, src/utils/gemini.ts).

The program is embedded shallowly: every awaited external call (Gemini model calls
via generateContent, Tavily search) is a component of an `Env` record mapping the
call's semantic inputs to an `Except Unit` outcome, where `.error ()` models a
rejected promise.  The TypeScript try/catch structure is translated literally, so
guarded calls degrade to their fallback values while unguarded awaits propagate as
`RunError` values.  The LangGraph state machine is modelled by a `Stage` type, a
one-step transition function `stepNode`, and a fueled iterator `runN`.
-/

set_option maxHeartbeats 1000000

namespace DeepResearch

/-- Model of one web search result (src/models/search.ts, interface SearchResult). -/
structure SearchResult where
  title : String
  link : String
  content : String
  filteredContent : Option String := none
deriving DecidableEq, Repr

/-- Results of one query as stored in the graph state (src/graph.ts, entries of
the results and filteredResults fields). -/
structure QueryResults where
  query : String
  searchResults : List SearchResult
deriving DecidableEq, Repr

/-- Final report (shape produced by generateReport in src/nodes/write.ts). -/
structure Report where
  title : String
  content : String
deriving DecidableEq, Repr

/-- Evaluation outcome (src/models/plan.ts, interface ResearchEvaluation). -/
structure ResearchEvaluation where
  isComplete : Bool
  queries : List String
deriving DecidableEq, Repr

/-- Graph state (src/graph.ts, interface ResearchState).  Every field is optional,
exactly as in the TypeScript interface where each key may be absent. -/
structure ResearchState where
  topic : Option String := none
  queries : Option (List String) := none
  results : Option (List QueryResults) := none
  isComplete : Option Bool := none
  filteredResults : Option (List QueryResults) := none
  report : Option Report := none
  iterationCount : Option Nat := none
deriving DecidableEq, Repr

/-- Raw item of a Tavily search response (src/nodes/search.ts, the fields read
from searchResponse.results); a field is none when absent. -/
structure RawSearchItem where
  title : Option String := none
  url : Option String := none
  content : Option String := none
deriving DecidableEq, Repr

/-- JavaScript-style defaulting for strings: `s || d` is `d` exactly when `s` is
undefined or the empty string (both are falsy). -/
def jsOr (s : Option String) (d : String) : String :=
  match s with
  | none => d
  | some s => if s = "" then d else s

/-- Entry of a parsed rankedSources array (src/nodes/evaluate.ts, interface
FilterResponse); nonNumber stands for a JSON value that is not a number. -/
inductive RankEntry where
  | num (n : Int)
  | nonNumber
deriving DecidableEq, Repr

/-- Parsed JSON of the completeness evaluation (src/nodes/evaluate.ts); a field is
none when it is absent or does not have the expected JavaScript type. -/
structure JsEval where
  isComplete : Option Bool := none
  queries : Option (List String) := none
deriving DecidableEq, Repr

/-- Environment of external-service behaviors.  Each component gives the outcome
of one kind of awaited external call, as a function of the call's semantic
inputs; `.error ()` models a rejected promise or, for the parse components, a
JSON-parse throw.  planExtract models the regex helper extractQueriesFromPlanText
(src/nodes/plan.ts); its output only feeds a fallback that is padded to a
nonempty list and no claim depends on its internals, so its text processing is a
parameter here. -/
structure Env where
  planCall : String → Except Unit String
  planParseCall : String → Except Unit String
  planJson : String → Except Unit (Option (List String))
  planExtract : String → List String
  searchCall : String → Except Unit (Option (List RawSearchItem))
  summCall : String → String → Except Unit String
  evalCall : String → List SearchResult → Except Unit String
  evalParseCall : String → Except Unit String
  evalJson : String → Except Unit JsEval
  filterCall : String → List SearchResult → Except Unit (Option (List RankEntry))
  writeCall : String → List SearchResult → Except Unit String

/-- Errors that can escape a node: the explicit throw sites in src/graph.ts and
the unguarded awaited service calls of src/nodes/plan.ts and src/nodes/write.ts. -/
inductive RunError where
  | noTopicPlanning
  | planServiceFailure
  | planParseServiceFailure
  | noTopicSearch
  | noQueries
  | noTopicEvaluate
  | noResults
  | noTopicWrite
  | noFilteredResults
  | writeServiceFailure
deriving DecidableEq, Repr

/-- Model of generateResearchPlan (src/nodes/plan.ts).  The two generateContent
awaits are not wrapped in any try/catch, so their failures propagate; only the
JSON handling is guarded, and both of its failure paths fall back to manual
extraction padded with a placeholder query.  maxQueries is the default 5 used by
the graph. -/
def generateResearchPlan (env : Env) (topic : String) : Except RunError (List String) :=
  match env.planCall topic with
  | .error _ => .error .planServiceFailure
  | .ok plan =>
    match env.planParseCall plan with
    | .error _ => .error .planParseServiceFailure
    | .ok parsedText =>
      match env.planJson parsedText with
      | .ok (some qs) => .ok (qs.take 5)
      | .ok none =>
        .ok (if env.planExtract plan = [] then [topic ++ " impact and applications"]
             else env.planExtract plan)
      | .error _ =>
        .ok (if env.planExtract plan = [] then [topic ++ " impact and applications"]
             else env.planExtract plan)

/-- Model of search (src/nodes/search.ts): a rejected Tavily call is caught and
yields the empty result list; otherwise the response's results (defaulted to []
when absent) are mapped with JavaScript-style field defaulting and cut to 5. -/
def search (env : Env) (query : String) : List SearchResult :=
  match env.searchCall query with
  | .error _ => []
  | .ok resp =>
    ((resp.getD []).map (fun it =>
      { title := jsOr it.title "No Title Provided"
        link := jsOr it.url "No Link Provided"
        content := it.content.getD ""
        filteredContent := none })).take 5

/-- Model of summarizeContent (src/nodes/search.ts): a rejected model call is
caught and becomes the empty string. -/
def summarizeContent (env : Env) (content query : String) : String :=
  match env.summCall content query with
  | .error _ => ""
  | .ok s => s

/-- Model of processSearchResults (src/nodes/search.ts): each result with
nonempty content gets a summarized filteredContent; others pass unchanged. -/
def processSearchResults (env : Env) (results : List SearchResult) (query : String) :
    List SearchResult :=
  results.map (fun r =>
    if r.content = "" then r
    else { r with filteredContent := some (summarizeContent env r.content query) })

/-- Work done for one query inside the Search node (src/graph.ts lines 83-93):
search, then content processing, stored together with the query. -/
def processQuery (env : Env) (q : String) : QueryResults :=
  { query := q, searchResults := processSearchResults env (search env q) q }

/-- Trace events of the search-service calls issued by the Search node. -/
inductive SEvent where
  | searchCall (q : String)
  | searchSettled (q : String)
deriving DecidableEq, Repr

/-- Events of the awaited search call for one query: the call is dispatched and
then awaited to settlement before the loop body continues. -/
def queryEvents (q : String) : List SEvent := [.searchCall q, .searchSettled q]

/-- Instrumented model of the for-await loop of searchingNode (src/graph.ts lines
80-94).  The loop body for one query runs to completion before the next query is
dispatched, so the trace of search-service calls is the concatenation of the
per-query event blocks in input order.  Summarization calls, which also happen
between a query's settlement and the next dispatch, are not traced. -/
def searchBatchT (env : Env) : List String → List QueryResults × List SEvent
  | [] => ([], [])
  | q :: rest =>
    let r := processQuery env q
    let p := searchBatchT env rest
    (r :: p.1, queryEvents q ++ p.2)

/-- Results of the search loop, one batch per query. -/
def searchBatch (env : Env) (qs : List String) : List QueryResults :=
  (searchBatchT env qs).1

/-- Trace of search-service calls of the search loop. -/
def searchTrace (env : Env) (qs : List String) : List SEvent :=
  (searchBatchT env qs).2

/-- True when no search call is dispatched after some search has already settled.
A concurrent fan-out (dispatch every query, then await them all) always satisfies
this, because every dispatch happens synchronously before the first await resumes. -/
def noCallAfterSettle : List SEvent → Bool
  | [] => true
  | .searchCall _ :: rest => noCallAfterSettle rest
  | .searchSettled _ :: rest =>
    rest.all (fun e => match e with | .searchCall _ => false | .searchSettled _ => true)

/-- Combination of previous and new results (src/graph.ts lines 96-99): previous
results are kept in front only when present and nonempty. -/
def combineResults (old : Option (List QueryResults)) (fresh : List QueryResults) :
    List QueryResults :=
  match old with
  | some rs => if rs = [] then fresh else rs ++ fresh
  | none => fresh

/-- Model of planingNode (src/graph.ts lines 55-68): guard on a falsy topic, then
plan generation; the returned update sets topic, queries, and iterationCount = 0. -/
def planingNode (env : Env) (st : ResearchState) : Except RunError ResearchState :=
  match st.topic with
  | none => .error .noTopicPlanning
  | some t =>
    if t = "" then .error .noTopicPlanning
    else
      (generateResearchPlan env t).map (fun qs =>
        { st with topic := some t, queries := some qs, iterationCount := some 0 })

/-- Model of searchingNode (src/graph.ts lines 71-111): guards, the sequential
search loop, result concatenation, clearing of queries, and the iteration-count
increment (state.iterationCount || 0) + 1. -/
def searchingNode (env : Env) (st : ResearchState) : Except RunError ResearchState :=
  match st.topic with
  | none => .error .noTopicSearch
  | some t =>
    if t = "" then .error .noTopicSearch
    else if st.queries.getD [] = [] then .error .noQueries
    else
      .ok { st with
            results := some (combineResults st.results (searchBatch env (st.queries.getD [])))
            queries := some []
            iterationCount := some (st.iterationCount.getD 0 + 1) }

/-- Flattening of all per-query results in batch order (src/graph.ts lines
122-125 and 181-184). -/
def flattenResults (rs : List QueryResults) : List SearchResult :=
  (rs.map (fun r => r.searchResults)).flatten

/-- Model of evaluateCompleteness (src/nodes/evaluate.ts lines 96-164) with all
of its fallback branches: the zero-results early return, the outer catch around
both model calls, the catch around JSON parsing, and the structure validation
with its optional-chaining default. -/
def evaluateCompleteness (env : Env) (topic : String) (results : List SearchResult) :
    ResearchEvaluation :=
  if results = [] then
    { isComplete := false, queries := [topic ++ " overview", topic ++ " key aspects"] }
  else
    match env.evalCall topic results with
    | .error _ =>
      { isComplete := false, queries := [topic ++ " overview", topic ++ " challenges"] }
    | .ok evaluation =>
      match env.evalParseCall evaluation with
      | .error _ =>
        { isComplete := false, queries := [topic ++ " overview", topic ++ " challenges"] }
      | .ok parsedText =>
        match env.evalJson parsedText with
        | .error _ =>
          { isComplete := false, queries := [topic ++ " summary", topic ++ " related topics"] }
        | .ok js =>
          match js.isComplete, js.queries with
          | some b, some qs => { isComplete := b, queries := qs }
          | _, _ =>
            { isComplete := false
              queries :=
                match js.queries with
                | some qs =>
                  if 0 < qs.length then qs
                  else [topic ++ " further details", topic ++ " recent developments"]
                | none => [topic ++ " further details", topic ++ " recent developments"] }

/-- Validity test for one rankedSources entry against the number of results
(src/nodes/evaluate.ts line 210): true exactly when the entry is a number that
is a valid 1-based position. -/
def validRank (n : Nat) : RankEntry → Bool
  | .num k => 0 < k && k ≤ (n : Int)
  | .nonNumber => false

/-- The 0-based indices surviving the validity filter of filterSearchResults
(src/nodes/evaluate.ts lines 208-212): the entries are filtered for validity and
the surviving numbers are shifted down by one; the filter keeps only numbers, so
the fallback value of the shift is never used. -/
def rankedIndices (n : Nat) (l : List RankEntry) : List Nat :=
  (l.filter (validRank n)).map (fun e =>
    match e with
    | .num k => (k - 1).toNat
    | .nonNumber => 0)

/-- Core of filterSearchResults (src/nodes/evaluate.ts lines 171-234) as a
function of the filter-service outcome: `.error ()` covers a rejected model call
or a JSON-parse throw (both land in the same catch and fall back to the first 5),
`.ok none` a parsed response without a rankedSources array (same fallback).  A
parsed nonempty rankedSources array is filtered for validity, mapped to results,
and cut to 10; every surviving index is in range by construction, so the get?
lookups always succeed. -/
def filterSearchResultsWith (resp : Except Unit (Option (List RankEntry)))
    (results : List SearchResult) : List SearchResult :=
  if results = [] then results
  else
    match resp with
    | .error _ => results.take 5
    | .ok none => results.take 5
    | .ok (some l) =>
      if l = [] then results.take 5
      else ((rankedIndices results.length l).filterMap (fun i => results.get? i)).take 10

/-- Model of filterSearchResults applied to the environment's filter outcome. -/
def filterSearchResults (env : Env) (topic : String) (results : List SearchResult) :
    List SearchResult :=
  filterSearchResultsWith (env.filterCall topic results) results

/-- Placeholder result inserted when filtering produced nothing (src/graph.ts
lines 141-145 and 162-166). -/
def placeholderResult : SearchResult :=
  { title := "No relevant results found"
    link := ""
    content := "Please try different search queries."
    filteredContent := none }

/-- Padding used by evaluatingNode: the filtered results, or the placeholder when
there are none. -/
def padResults (l : List SearchResult) : List SearchResult :=
  if l = [] then [placeholderResult] else l

/-- Iteration cap of the Evaluate node (src/graph.ts line 128). -/
def MAX_ITERATIONS : Nat := 3

/-- Model of evaluatingNode (src/graph.ts lines 113-170): guards, flattening,
forced completion at the iteration cap (which bypasses evaluateCompleteness),
otherwise delegated evaluation with follow-up queries only in the incomplete
case; both branches filter and pad the results and echo the iteration count.
The source computes the evaluation and the flattened results once into local
constants; the repeated subterms below denote those same values. -/
def evaluatingNode (env : Env) (st : ResearchState) : Except RunError ResearchState :=
  match st.topic with
  | none => .error .noTopicEvaluate
  | some t =>
    if t = "" then .error .noTopicEvaluate
    else
      match st.results with
      | none => .error .noResults
      | some rs =>
        if rs = [] then .error .noResults
        else if MAX_ITERATIONS ≤ st.iterationCount.getD 0 then
          .ok { st with
                isComplete := some true
                filteredResults := some
                  [{ query := t
                     searchResults := padResults (filterSearchResults env t (flattenResults rs)) }]
                iterationCount := some (st.iterationCount.getD 0) }
        else
          .ok { st with
                isComplete := some (evaluateCompleteness env t (flattenResults rs)).isComplete
                queries :=
                  if (evaluateCompleteness env t (flattenResults rs)).isComplete then st.queries
                  else some (evaluateCompleteness env t (flattenResults rs)).queries
                filteredResults := some
                  [{ query := t
                     searchResults := padResults (filterSearchResults env t (flattenResults rs)) }]
                iterationCount := some (st.iterationCount.getD 0) }

/-- Lines of a character list, split at newline characters. -/
def splitLinesC : List Char → List (List Char)
  | [] => [[]]
  | c :: cs =>
    if c = '\n' then [] :: splitLinesC cs
    else
      match splitLinesC cs with
      | [] => [[c]]
      | l :: ls => (c :: l) :: ls

/-- Continuation of the greedy whitespace run of the title regex of
generateReport: skip whitespace within the current remainder, crossing line
breaks into following lines, and capture the remainder of the line where the run
ends (the lazy dot group cannot cross a line break). -/
def captureFrom (rest : List Char) : List (List Char) → List Char
  | [] => rest.dropWhile Char.isWhitespace
  | l :: ls =>
    if rest.dropWhile Char.isWhitespace = [] then captureFrom l ls
    else rest.dropWhile Char.isWhitespace

/-- True when the regex can continue past the line-start hash: the remainder of
the line starts with a whitespace character, or the remainder is empty and a
following line exists (so the line break itself is the whitespace). -/
def restTriggers (rest : List Char) (ls : List (List Char)) : Bool :=
  match rest with
  | c :: _ => c.isWhitespace
  | [] => !ls.isEmpty

/-- Model of the title regex of generateReport (src/nodes/write.ts line 113,
multiline regex matching the line-start hash followed by one or more whitespace
characters and a lazy capture to line end).  A line matches when it starts with
the hash followed by a whitespace character, or is a bare hash whose whitespace
run is the following line break; the capture is the remainder of the line where
the whitespace run ends. -/
def findHeadingMatch : List (List Char) → Option (List Char)
  | [] => none
  | l :: ls =>
    match l with
    | c0 :: rest =>
      if c0 == '#' && restTriggers rest ls then some (captureFrom rest ls)
      else findHeadingMatch ls
    | [] => findHeadingMatch ls

/-- Claim-side notion of a top-level markdown heading line: a line starting with
the hash followed by a whitespace character; its contents are the remainder of
the line after the whitespace run. -/
def lineHeading (l : List Char) : Option (List Char) :=
  match l with
  | c0 :: c1 :: rest =>
    if c0 == '#' && c1.isWhitespace then some ((c1 :: rest).dropWhile Char.isWhitespace)
    else none
  | _ => none

/-- Lines at which the title regex can start a match: a line starting with the
hash followed by a whitespace character, or a bare hash line (whose whitespace
run can be the following line break, when one exists). -/
def headingTrigger (l : List Char) : Bool :=
  match l with
  | [c0] => c0 == '#'
  | c0 :: c1 :: _ => c0 == '#' && c1.isWhitespace
  | [] => false

/-- Title extraction of generateReport (src/nodes/write.ts lines 112-114): the
first regex match, or the topic verbatim when there is none. -/
def extractTitle (topic text : String) : String :=
  match findHeadingMatch (splitLinesC text.data) with
  | some t => String.mk t
  | none => topic

/-- Model of generateReport (src/nodes/write.ts): the generateContent await is
not guarded, so its failure propagates; otherwise the report carries the
extracted title and the raw text. -/
def generateReport (env : Env) (topic : String) (results : List SearchResult) :
    Except RunError Report :=
  match env.writeCall topic results with
  | .error _ => .error .writeServiceFailure
  | .ok text => .ok { title := extractTitle topic text, content := text }

/-- Model of writingNode (src/graph.ts lines 172-190). -/
def writingNode (env : Env) (st : ResearchState) : Except RunError ResearchState :=
  match st.topic with
  | none => .error .noTopicWrite
  | some t =>
    if t = "" then .error .noTopicWrite
    else
      match st.filteredResults with
      | none => .error .noFilteredResults
      | some fs =>
        if fs = [] then .error .noFilteredResults
        else
          (generateReport env t (flattenResults fs)).map (fun rep =>
            { st with report := some rep })

/-- Workflow stages of the compiled graph (src/graph.ts lines 209-235). -/
inductive Stage where
  | Plan | Search | Evaluate | Write | Done
deriving DecidableEq, Repr

/-- Conditional edge after Evaluate (src/graph.ts lines 216-233): route on the
truthiness of isComplete, with Search as the fallback for a missing value. -/
def routeAfterEvaluate (st : ResearchState) : Stage :=
  match st.isComplete with
  | some b => if b then .Write else .Search
  | none => .Search

/-- One transition of the workflow graph: run the stage's node on the state and
follow the graph's edge out of that stage. -/
def stepNode (env : Env) : Stage → ResearchState → Except RunError (Stage × ResearchState)
  | .Plan, st => (planingNode env st).map (fun st' => (.Search, st'))
  | .Search, st => (searchingNode env st).map (fun st' => (.Evaluate, st'))
  | .Evaluate, st => (evaluatingNode env st).map (fun st' => (routeAfterEvaluate st', st'))
  | .Write, st => (writingNode env st).map (fun st' => (.Done, st'))
  | .Done, st => .ok (.Done, st)

/-- Run at most n transitions of the workflow; the Done stage is stationary. -/
def runN (env : Env) : Nat → Stage → ResearchState → Except RunError (Stage × ResearchState)
  | 0, stage, st => .ok (stage, st)
  | n + 1, stage, st =>
    match stepNode env stage st with
    | .error e => .error e
    | .ok p => runN env n p.1 p.2

/-- Initial state of a run on a topic (src/index.ts, researcher.invoke). -/
def initState (t : String) : ResearchState := { topic := some t }

/-- Accumulator version of SearchResults.dedup (src/models/search.ts lines
173-185): seen is the set of links already kept, represented by the list of its
elements (only membership is ever queried, matching the JavaScript Set). -/
def dedupAux : List SearchResult → List String → List SearchResult
  | [], _ => []
  | r :: rest, seen =>
    if r.link ∈ seen then dedupAux rest seen
    else r :: dedupAux rest (r.link :: seen)

/-- Model of SearchResults.dedup: first-seen-wins deduplication on the literal
link value. -/
def dedup (results : List SearchResult) : List SearchResult :=
  dedupAux results []

/-- Environment in which every external call fails. -/
def env0 : Env where
  planCall := fun _ => .error ()
  planParseCall := fun _ => .error ()
  planJson := fun _ => .error ()
  planExtract := fun _ => []
  searchCall := fun _ => .error ()
  summCall := fun _ _ => .error ()
  evalCall := fun _ _ => .error ()
  evalParseCall := fun _ => .error ()
  evalJson := fun _ => .error ()
  filterCall := fun _ _ => .error ()
  writeCall := fun _ _ => .error ()

/-- Environment whose evaluation step always judges the research incomplete with
one follow-up query, with a working planner, searcher, filter, and writer. -/
def envLoop : Env where
  planCall := fun _ => .ok "plan"
  planParseCall := fun _ => .ok "parsed"
  planJson := fun _ => .ok (some ["q"])
  planExtract := fun _ => []
  searchCall := fun _ => .ok (some [{ title := some "t", url := some "u", content := some "c" }])
  summCall := fun _ _ => .ok "s"
  evalCall := fun _ _ => .ok "e"
  evalParseCall := fun _ => .ok "p"
  evalJson := fun _ => .ok { isComplete := some false, queries := some ["f"] }
  filterCall := fun _ _ => .ok (some [.num 1])
  writeCall := fun _ _ => .ok "# T"


/-- Filtered-results entry built by evaluatingNode from the accumulated batches. -/
def filteredEntry (env : Env) (t : String) (rs : List QueryResults) : QueryResults :=
  { query := t, searchResults := padResults (filterSearchResults env t (flattenResults rs)) }

/-- State after a successful Plan step: topic, planned queries, counter zero. -/
def afterPlan (t : String) (qs : List String) : ResearchState :=
  { topic := some t, queries := some qs, iterationCount := some 0 }

/-- Environment identical to envLoop except that the planning model call fails. -/
def envPlanFail : Env := { envLoop with planCall := fun _ => .error () }

/-- State produced by the Plan step of envLoop on topic "t". -/
def stPlanned : ResearchState :=
  { topic := some "t", queries := some ["q"], iterationCount := some 0 }

/-- State produced by the Search step of envLoop after stPlanned. -/
def stSearched : ResearchState :=
  { topic := some "t", queries := some [], results := some [processQuery envLoop "q"],
    iterationCount := some 1 }

/-- State whose accumulated batches contain zero results, below the cap. -/
def stZero : ResearchState :=
  { topic := some "t", results := some [{ query := "q", searchResults := [] }],
    iterationCount := some 0 }

/-- State at the iteration cap whose accumulated batches contain zero results. -/
def stCap : ResearchState :=
  { topic := some "t", results := some [{ query := "q", searchResults := [] }],
    iterationCount := some 3 }

/-- Environment whose report writer returns a text whose only hash line is a
bare hash followed by a line break. -/
def env9 : Env :=
  { env0 with writeCall := fun _ _ => .ok (String.mk ['#', '\n', 'f', 'o', 'o']) }

/-- Five concrete search results with pairwise distinct links. -/
def rs5 : List SearchResult :=
  [ { title := "t1", link := "l1", content := "c1" },
    { title := "t2", link := "l2", content := "c2" },
    { title := "t3", link := "l3", content := "c3" },
    { title := "t4", link := "l4", content := "c4" },
    { title := "t5", link := "l5", content := "c5" } ]

/-- Stage-indexed bound on the iteration counter: zero at Plan entry, at most
MAX_ITERATIONS - 1 when entering Search (so the increment stays within the cap),
and at most MAX_ITERATIONS everywhere else. -/
def cntInv : Stage → ResearchState → Prop
  | .Plan, st => st.iterationCount.getD 0 = 0
  | .Search, st => st.iterationCount.getD 0 + 1 ≤ MAX_ITERATIONS
  | .Evaluate, st => st.iterationCount.getD 0 ≤ MAX_ITERATIONS
  | .Write, st => st.iterationCount.getD 0 ≤ MAX_ITERATIONS
  | .Done, st => st.iterationCount.getD 0 ≤ MAX_ITERATIONS

/-! ## Lemmas about deduplication (SearchResults.dedup) -/

lemma dedupAux_filter (l : String) :
    ∀ (xs : List SearchResult) (seen : List String),
      (dedupAux xs seen).filter (fun r => r.link == l)
        = if l ∈ seen then [] else (xs.filter (fun r => r.link == l)).take 1 := by
  intro xs
  induction xs with
  | nil =>
    intro seen
    by_cases h : l ∈ seen <;> simp [dedupAux, h]
  | cons r rest ih =>
    intro seen
    by_cases hr : r.link ∈ seen
    · rw [dedupAux, if_pos hr, ih]
      by_cases hl : l ∈ seen
      · simp [hl]
      · have hne : (r.link == l) = false := by
          simp only [beq_eq_false_iff_ne]
          intro he
          exact hl (he ▸ hr)
        simp [hl, List.filter_cons, hne]
    · rw [dedupAux, if_neg hr]
      by_cases hrl : r.link = l
      · subst hrl
        have hmem : r.link ∈ r.link :: seen := List.mem_cons_self _ _
        rw [List.filter_cons]
        simp only [beq_self_eq_true, if_true, ih, if_pos hmem]
        rw [if_neg hr, List.filter_cons]
        simp
      · have hne : (r.link == l) = false := by
          simp only [beq_eq_false_iff_ne]
          exact hrl
        rw [List.filter_cons, hne]
        simp only [Bool.false_eq_true, if_false, ih]
        have hiff : l ∈ r.link :: seen ↔ l ∈ seen := by
          constructor
          · intro h
            rcases List.mem_cons.mp h with he | hs
            · exact absurd he.symm hrl
            · exact hs
          · exact List.mem_cons_of_mem _
        by_cases hl : l ∈ seen
        · rw [if_pos (hiff.mpr hl), if_pos hl]
        · rw [if_neg (fun h => hl (hiff.mp h)), if_neg hl, List.filter_cons, hne]
          simp

lemma mem_dedupAux_not_seen :
    ∀ (xs : List SearchResult) (seen : List String) (r : SearchResult),
      r ∈ dedupAux xs seen → r.link ∉ seen := by
  intro xs
  induction xs with
  | nil =>
    intro seen r h
    simp [dedupAux] at h
  | cons x rest ih =>
    intro seen r h
    rw [dedupAux] at h
    by_cases hx : x.link ∈ seen
    · rw [if_pos hx] at h
      exact ih seen r h
    · rw [if_neg hx] at h
      rcases List.mem_cons.mp h with he | hm
      · subst he
        exact hx
      · intro hs
        exact ih _ r hm (List.mem_cons_of_mem _ hs)

lemma dedupAux_links_nodup :
    ∀ (xs : List SearchResult) (seen : List String),
      ((dedupAux xs seen).map (fun r => r.link)).Nodup := by
  intro xs
  induction xs with
  | nil =>
    intro seen
    simp [dedupAux]
  | cons x rest ih =>
    intro seen
    rw [dedupAux]
    by_cases hx : x.link ∈ seen
    · rw [if_pos hx]
      exact ih seen
    · rw [if_neg hx]
      simp only [List.map_cons, List.nodup_cons]
      refine ⟨?_, ih _⟩
      intro hmem
      rcases List.mem_map.mp hmem with ⟨r, hr, he⟩
      exact mem_dedupAux_not_seen rest _ r hr (he ▸ List.mem_cons_self _ _)

lemma dedupAux_eq_self :
    ∀ (xs : List SearchResult) (seen : List String),
      (∀ r ∈ xs, r.link ∉ seen) → (xs.map (fun r => r.link)).Nodup →
      dedupAux xs seen = xs := by
  intro xs
  induction xs with
  | nil =>
    intro seen _ _
    rfl
  | cons x rest ih =>
    intro seen hni hnd
    rw [dedupAux, if_neg (hni x (List.mem_cons_self _ _))]
    simp only [List.map_cons, List.nodup_cons] at hnd
    congr 1
    apply ih
    · intro r hr hmem
      rcases List.mem_cons.mp hmem with he | hs
      · exact hnd.1 (he ▸ List.mem_map_of_mem _ hr)
      · exact hni r (List.mem_cons_of_mem _ hr) hs
    · exact hnd.2

/-- C8: deduplication by link is first-seen-wins on the literal link value (for
every key `l`, including the empty string, the deduplicated list keeps exactly
the first result carrying that link), it is idempotent, and in particular all
empty-link placeholders collapse to at most one entry. -/
theorem dedup_first_seen_wins_and_idempotent (xs : List SearchResult) (l : String) :
    (dedup xs).filter (fun r => r.link == l) = (xs.filter (fun r => r.link == l)).take 1
    ∧ dedup (dedup xs) = dedup xs
    ∧ ((dedup xs).filter (fun r => r.link == "")).length ≤ 1 := by
  refine ⟨?_, ?_, ?_⟩
  · rw [dedup, dedupAux_filter]
    simp
  · rw [dedup, dedup]
    apply dedupAux_eq_self
    · intro r _ hmem
      simp at hmem
    · exact dedupAux_links_nodup xs []
  · have h := dedupAux_filter "" xs []
    rw [dedup, h]
    simp only [List.not_mem_nil, if_false]
    calc ((xs.filter (fun r => r.link == "")).take 1).length
        ≤ 1 := by
          rw [List.length_take]
          exact min_le_left _ _

/-! ## Lemmas about filterSearchResults -/

lemma rankedIndices_drop_invalid (n : Nat) (l1 l2 : List RankEntry) (e : RankEntry)
    (he : validRank n e = false) :
    rankedIndices n (l1 ++ e :: l2) = rankedIndices n (l1 ++ l2) := by
  simp [rankedIndices, List.filter_append, List.filter_cons, he]

lemma rankedIndices_all_invalid (n : Nat) (l : List RankEntry)
    (h : ∀ e ∈ l, validRank n e = false) :
    rankedIndices n l = [] := by
  have : l.filter (validRank n) = [] := by
    rw [List.filter_eq_nil_iff]
    intro a ha
    rw [h a ha]
    simp
  rw [rankedIndices, this]
  rfl

/-- C6 (amended): filterSearchResults silently discards invalid ranked positions
(removing an invalid entry from a ranked list never changes the output, as long
as the rest of the list is nonempty), caps every output at 10 entries, and falls
back to the first 5 original results when the service call fails, the response
has no rankedSources array, or the array is empty — but when a nonempty
rankedSources array contains only invalid positions the output is the empty list
and no fallback is applied. -/
theorem filterSearchResults_invalid_cap_fallback :
    (∀ (results : List SearchResult) (l1 l2 : List RankEntry) (e : RankEntry),
        validRank results.length e = false → l1 ++ l2 ≠ [] →
        filterSearchResultsWith (.ok (some (l1 ++ e :: l2))) results
          = filterSearchResultsWith (.ok (some (l1 ++ l2))) results)
    ∧ (∀ (resp : Except Unit (Option (List RankEntry))) (results : List SearchResult),
        (filterSearchResultsWith resp results).length ≤ 10)
    ∧ (∀ (results : List SearchResult), results ≠ [] →
        filterSearchResultsWith (.error ()) results = results.take 5
        ∧ filterSearchResultsWith (.ok none) results = results.take 5
        ∧ filterSearchResultsWith (.ok (some [])) results = results.take 5)
    ∧ (∀ (results : List SearchResult) (l : List RankEntry), l ≠ [] →
        (∀ e ∈ l, validRank results.length e = false) →
        filterSearchResultsWith (.ok (some l)) results = []) := by
  refine ⟨?_, ?_, ?_, ?_⟩
  · intro results l1 l2 e he hne
    by_cases hres : results = []
    · simp [filterSearchResultsWith, hres]
    · have h1 : l1 ++ e :: l2 ≠ [] := by
        intro h
        rcases List.append_eq_nil.mp h with ⟨_, h2⟩
        exact List.cons_ne_nil _ _ h2
      simp only [filterSearchResultsWith, if_neg hres, if_neg h1, if_neg hne]
      rw [rankedIndices_drop_invalid _ _ _ _ he]
  · intro resp results
    by_cases hres : results = []
    · simp [filterSearchResultsWith, hres]
    · rcases resp with e | resp
      · simp only [filterSearchResultsWith, if_neg hres]
        rw [List.length_take]
        omega
      · rcases resp with _ | l
        · simp only [filterSearchResultsWith, if_neg hres]
          rw [List.length_take]
          omega
        · by_cases hl : l = []
          · simp only [filterSearchResultsWith, if_neg hres, hl, if_true]
            rw [List.length_take]
            omega
          · simp only [filterSearchResultsWith, if_neg hres, if_neg hl]
            rw [List.length_take]
            omega
  · intro results hres
    refine ⟨?_, ?_, ?_⟩ <;> simp [filterSearchResultsWith, hres]
  · intro results l hl hall
    simp only [filterSearchResultsWith]
    by_cases hres : results = []
    · simp [hres]
    · simp only [if_neg hres, if_neg hl]
      rw [rankedIndices_all_invalid _ _ hall]
      rfl

/-- Witness for the amended C6 theorem at concrete inputs. -/
theorem filterSearchResults_invalid_cap_fallback_witness :
    filterSearchResultsWith (.ok (some [.num 1, .nonNumber])) rs5
      = filterSearchResultsWith (.ok (some [.num 1])) rs5
    ∧ filterSearchResultsWith (.error ()) rs5 = rs5.take 5
    ∧ filterSearchResultsWith (.ok (some [.num 99])) rs5 = [] := by
  refine ⟨?_, ?_, ?_⟩
  · exact filterSearchResults_invalid_cap_fallback.1 rs5 [.num 1] [] .nonNumber rfl (by simp)
  · exact (filterSearchResults_invalid_cap_fallback.2.2.1 rs5 (by simp [rs5])).1
  · refine filterSearchResults_invalid_cap_fallback.2.2.2 rs5 [.num 99] (by simp) ?_
    intro e he
    rw [List.mem_singleton.mp he]
    rfl

/-- C6 (counterexample): with five results and a ranked list containing only the
out-of-range position 99, the output is empty and is not the first-5 fallback,
refuting the claim that an empty filtered set always falls back to the first 5
original results. -/
theorem filterSearchResults_empty_no_fallback_counterexample :
    filterSearchResultsWith (.ok (some [.num 99])) rs5 = []
    ∧ rs5.take 5 = rs5
    ∧ rs5 ≠ [] := by
  refine ⟨rfl, rfl, ?_⟩
  simp [rs5]

/-- C10: filterSearchResults does not deduplicate ranked positions: a valid
position repeated twice in rankedSources puts the corresponding result twice in
the output, so the output is not a duplicate-free list. -/
theorem filterSearchResults_keeps_duplicate_ranks (rs : List SearchResult) (n : Nat)
    (h1 : 0 < n) (h2 : n ≤ rs.length) :
    ∃ r, rs.get? (n - 1) = some r
    ∧ filterSearchResultsWith (.ok (some [.num (n : Int), .num (n : Int)])) rs = [r, r]
    ∧ ¬ [r, r].Nodup := by
  have hlt : n - 1 < rs.length := by omega
  refine ⟨rs.get ⟨n - 1, hlt⟩, List.get?_eq_get hlt, ?_, by simp⟩
  have hres : rs ≠ [] := by
    intro h
    rw [h] at h2
    simp at h2
    omega
  have hl : ([RankEntry.num (n : Int), RankEntry.num (n : Int)] : List RankEntry) ≠ [] := by
    simp
  have hv : validRank rs.length (.num (n : Int)) = true := by
    simp only [validRank, Bool.and_eq_true, decide_eq_true_eq]
    constructor
    · exact_mod_cast h1
    · exact_mod_cast h2
  have hidx : rankedIndices rs.length [.num (n : Int), .num (n : Int)] = [n - 1, n - 1] := by
    simp only [rankedIndices, List.filter_cons, hv, if_true, List.filter_nil, List.map_cons,
      List.map_nil]
    have : ((n : Int) - 1).toNat = n - 1 := by omega
    rw [this]
  simp only [filterSearchResultsWith, if_neg hres, if_neg hl, hidx, List.filterMap_cons,
    List.filterMap_nil, List.get?_eq_get hlt]
  rfl

/-- Witness for the C10 theorem at a concrete input. -/
theorem filterSearchResults_keeps_duplicate_ranks_witness :
    filterSearchResultsWith (.ok (some [.num 2, .num 2])) rs5
      = [{ title := "t2", link := "l2", content := "c2" },
         { title := "t2", link := "l2", content := "c2" }] := by
  obtain ⟨r, hr, he, _⟩ := filterSearchResults_keeps_duplicate_ranks rs5 2 (by decide) (by decide)
  have h2 : rs5.get? 1 = some { title := "t2", link := "l2", content := "c2" } := rfl
  rw [h2] at hr
  rw [(Option.some.inj hr).symm] at he
  exact he

/-! ## Lemmas about the search loop (searchingNode's fan-out behavior) -/

lemma searchBatchT_fst (env : Env) :
    ∀ qs : List String, (searchBatchT env qs).1 = qs.map (processQuery env) := by
  intro qs
  induction qs with
  | nil => rfl
  | cons q rest ih =>
    simp only [searchBatchT, List.map_cons]
    rw [ih]

lemma searchBatch_eq_map (env : Env) (qs : List String) :
    searchBatch env qs = qs.map (processQuery env) := by
  rw [searchBatch, searchBatchT_fst]

lemma searchTrace_eq_flatten (env : Env) :
    ∀ qs : List String, searchTrace env qs = (qs.map queryEvents).flatten := by
  intro qs
  induction qs with
  | nil => rfl
  | cons q rest ih =>
    simp only [searchTrace, searchBatchT, List.map_cons, List.flatten_cons]
    rw [← searchTrace, ih]

lemma processQuery_query (env : Env) (q : String) : (processQuery env q).query = q := rfl

lemma processQuery_failed (env : Env) (q : String) (h : env.searchCall q = .error ()) :
    (processQuery env q).searchResults = [] := by
  simp [processQuery, processSearchResults, search, h]

lemma processQuery_garbled (env : Env) (q : String) (h : env.searchCall q = .ok none) :
    (processQuery env q).searchResults = [] := by
  simp [processQuery, processSearchResults, search, h]

/-- C4: for every batch of queries, the Search loop returns exactly one result
batch per query, in the original query order; the batch at position i is
computed from query i alone (so a failure for one query cannot abort or change
the others), and a query whose search call fails gets the empty result batch. -/
theorem search_isolated_per_query (env : Env) (qs : List String) :
    (searchBatch env qs).length = qs.length
    ∧ (∀ i : Nat, (searchBatch env qs).get? i = (qs.get? i).map (processQuery env))
    ∧ (∀ q, (processQuery env q).query = q)
    ∧ (∀ q, env.searchCall q = .error () → (processQuery env q).searchResults = [])
    ∧ (∀ q, env.searchCall q = .ok none → (processQuery env q).searchResults = []) := by
  refine ⟨?_, ?_, processQuery_query env, processQuery_failed env, processQuery_garbled env⟩
  · rw [searchBatch_eq_map, List.length_map]
  · intro i
    rw [searchBatch_eq_map, List.get?_map]

/-- Witness for the C4 theorem at concrete inputs: with every search call
failing, a two-query batch still yields two batches, in order, both empty; a
call answering without a results array also degrades to the empty batch. -/
theorem search_isolated_per_query_witness :
    (searchBatch env0 ["a", "b"]).length = 2
    ∧ (searchBatch env0 ["a", "b"]).get? 0 = some (processQuery env0 "a")
    ∧ (processQuery env0 "a").searchResults = []
    ∧ (processQuery { env0 with searchCall := fun _ => .ok none } "a").searchResults = [] := by
  refine ⟨?_, ?_, ?_, ?_⟩
  · rw [(search_isolated_per_query env0 ["a", "b"]).1]
    rfl
  · rw [(search_isolated_per_query env0 ["a", "b"]).2.1 0]
    rfl
  · exact (search_isolated_per_query env0 ["a", "b"]).2.2.2.1 "a" rfl
  · exact (search_isolated_per_query { env0 with searchCall := fun _ => .ok none }
      ["a", "b"]).2.2.2.2 "a" rfl

/-- C5 (counterexample): the Search stage does not dispatch the whole batch
concurrently: with two queries, the trace of search-service calls contains the
dispatch of the second query after the first query's search has already settled,
refuting the fan-out-then-join dispatch order that concurrent execution of the
batch would produce. -/
theorem search_not_concurrent_counterexample :
    noCallAfterSettle (searchTrace envLoop ["a", "b"]) = false
    ∧ searchTrace envLoop ["a", "b"]
        = [.searchCall "a", .searchSettled "a", .searchCall "b", .searchSettled "b"] := by
  exact ⟨rfl, rfl⟩

/-- C5 (amended): within the Search stage the queries of the batch are executed
sequentially in input order — the trace of search-service calls is the
concatenation of the per-query dispatch/settle blocks, so each query's search
settles before the next query is dispatched — and the stage still returns one
result batch per query in input order. -/
theorem search_sequential_execution (env : Env) (qs : List String) :
    searchTrace env qs = (qs.map queryEvents).flatten
    ∧ (searchBatch env qs).map (fun b => b.query) = qs
    ∧ (searchTrace env qs).length = 2 * qs.length := by
  refine ⟨searchTrace_eq_flatten env qs, ?_, ?_⟩
  · rw [searchBatch_eq_map, List.map_map]
    have : ((fun b => QueryResults.query b) ∘ processQuery env) = fun q => q := by
      funext q
      rfl
    rw [this, List.map_id']
  · rw [searchTrace_eq_flatten]
    induction qs with
    | nil => rfl
    | cons q rest ih =>
      simp only [List.map_cons, List.flatten_cons, List.length_append, ih, queryEvents,
        List.length_cons, List.length_nil]
      ring

/-! ## Lemmas about title extraction (generateReport) -/

lemma captureFrom_of_ne (rest : List Char) (ls : List (List Char))
    (h : rest.dropWhile Char.isWhitespace ≠ []) :
    captureFrom rest ls = rest.dropWhile Char.isWhitespace := by
  cases ls with
  | nil => rfl
  | cons l ls => simp only [captureFrom, if_neg h]

lemma findHeadingMatch_of_find? :
    ∀ (lines : List (List Char)) (l t : List Char),
      lines.find? headingTrigger = some l → lineHeading l = some t → t ≠ [] →
      findHeadingMatch lines = some t := by
  intro lines
  induction lines with
  | nil =>
    intro l t hf
    simp at hf
  | cons l0 ls ih =>
    intro l t hf hh ht
    by_cases h0 : headingTrigger l0 = true
    · rw [List.find?_cons_of_pos _ h0] at hf
      have hl : l0 = l := Option.some.inj hf
      subst hl
      cases l0 with
      | nil => simp [headingTrigger] at h0
      | cons c0 cs =>
        cases cs with
        | nil => simp [lineHeading] at hh
        | cons c1 cs1 =>
          simp only [lineHeading] at hh
          by_cases hc : (c0 == '#' && c1.isWhitespace) = true
          · rw [if_pos hc] at hh
            have hcap : t = (c1 :: cs1).dropWhile Char.isWhitespace :=
              (Option.some.inj hh).symm
            simp only [findHeadingMatch]
            have hr : restTriggers (c1 :: cs1) ls = c1.isWhitespace := rfl
            rw [hr, if_pos hc]
            rw [captureFrom_of_ne _ _ (hcap ▸ ht), ← hcap]
          · rw [if_neg hc] at hh
            exact absurd hh (by simp)
    · rw [List.find?_cons_of_neg _ h0] at hf
      cases l0 with
      | nil =>
        simp only [findHeadingMatch]
        exact ih l t hf hh ht
      | cons c0 cs =>
        simp only [findHeadingMatch]
        have hcond : (c0 == '#' && restTriggers cs ls) = false := by
          cases cs with
          | nil =>
            simp only [headingTrigger, Bool.not_eq_true] at h0
            simp only [restTriggers]
            rw [h0]
            simp
          | cons c1 cs1 =>
            simp only [headingTrigger, Bool.not_eq_true] at h0
            simpa only [restTriggers] using h0
        rw [hcond]
        simp only [Bool.false_eq_true, if_false]
        exact ih l t hf hh ht

lemma findHeadingMatch_of_none :
    ∀ lines : List (List Char),
      lines.find? headingTrigger = none → findHeadingMatch lines = none := by
  intro lines
  induction lines with
  | nil =>
    intro _
    rfl
  | cons l0 ls ih =>
    intro hf
    rw [List.find?_cons] at hf
    by_cases h0 : headingTrigger l0 = true
    · rw [h0] at hf
      simp at hf
    · have h0' : headingTrigger l0 = false := by
        cases hb : headingTrigger l0
        · rfl
        · exact absurd hb h0
      rw [h0'] at hf
      simp only [cond_false] at hf
      cases l0 with
      | nil =>
        simp only [findHeadingMatch]
        exact ih hf
      | cons c0 cs =>
        simp only [findHeadingMatch]
        have hcond : (c0 == '#' && restTriggers cs ls) = false := by
          cases cs with
          | nil =>
            simp only [headingTrigger] at h0'
            simp only [restTriggers]
            rw [h0']
            simp
          | cons c1 cs1 =>
            simp only [headingTrigger] at h0'
            simpa only [restTriggers] using h0'
        rw [hcond]
        simp only [Bool.false_eq_true, if_false]
        exact ih hf

/-- C9 (amended): the Write stage's report carries the extracted title and the
raw generated text; when the first line at which the title regex can match is a
proper heading line (hash, whitespace, then some non-whitespace content on the
same line), the title is exactly that heading line's contents; when no line can
match the regex at all, the title is the topic string verbatim.  (When the
first matching line has only whitespace after the hash, the regex's whitespace
run crosses the line break and the title comes from a following line; see the
counterexample.) -/
theorem report_title_from_first_heading (env : Env) (topic : String)
    (results : List SearchResult) (text : String)
    (h : env.writeCall topic results = .ok text) :
    generateReport env topic results
      = .ok { title := extractTitle topic text, content := text }
    ∧ (∀ l t, (splitLinesC text.data).find? headingTrigger = some l →
        lineHeading l = some t → t ≠ [] → extractTitle topic text = String.mk t)
    ∧ ((splitLinesC text.data).find? headingTrigger = none →
        extractTitle topic text = topic) := by
  refine ⟨?_, ?_, ?_⟩
  · rw [generateReport, h]
  · intro l t hf hh ht
    rw [extractTitle, findHeadingMatch_of_find? _ l t hf hh ht]
  · intro hf
    rw [extractTitle, findHeadingMatch_of_none _ hf]

/-- Witness for the amended C9 theorem at a concrete input. -/
theorem report_title_from_first_heading_witness :
    extractTitle "top" "# T" = "T" := by
  have h := report_title_from_first_heading envLoop "top" [] "# T" rfl
  exact h.2.1 ['#', ' ', 'T'] ['T'] rfl rfl (by simp)

/-- C9 (counterexample): on the generated text consisting of a bare hash line
followed by the line "foo", no line of the text is a top-level heading line with
contents, yet the extracted title is "foo" — the regex's whitespace run crosses
the line break — so the title is neither the contents of a heading line (it is
nonempty) nor the topic verbatim, refuting the claim as stated. -/
theorem report_title_crosses_line_break_counterexample :
    generateReport env9 "T" []
      = .ok { title := "foo", content := String.mk ['#', '\n', 'f', 'o', 'o'] }
    ∧ ((splitLinesC (String.mk ['#', '\n', 'f', 'o', 'o']).data).all
        (fun l => (lineHeading l).isNone)) = true
    ∧ ("foo" : String) ≠ "T"
    ∧ ("foo" : String) ≠ "" := by
  refine ⟨rfl, rfl, by decide, by decide⟩

/-! ## Lemmas about the workflow state machine -/

lemma planingNode_eq (env : Env) (st : ResearchState) (t : String)
    (h1 : st.topic = some t) (h2 : t ≠ "") :
    planingNode env st = (generateResearchPlan env t).map (fun qs =>
      { st with topic := some t, queries := some qs, iterationCount := some 0 }) := by
  simp only [planingNode, h1]
  rw [if_neg h2]

lemma planingNode_err_empty (env : Env) (st : ResearchState) (h1 : st.topic = some "") :
    planingNode env st = .error .noTopicPlanning := by
  simp [planingNode, h1]

lemma generateResearchPlan_error (env : Env) (t : String) (e : RunError)
    (h : generateResearchPlan env t = .error e) :
    e = .planServiceFailure ∨ e = .planParseServiceFailure := by
  unfold generateResearchPlan at h
  cases h1 : env.planCall t with
  | error u =>
    simp only [h1] at h
    exact .inl (Except.error.inj h).symm
  | ok plan =>
    simp only [h1] at h
    cases h2 : env.planParseCall plan with
    | error u =>
      simp only [h2] at h
      exact .inr (Except.error.inj h).symm
    | ok parsed =>
      simp only [h2] at h
      cases h3 : env.planJson parsed with
      | error u =>
        simp only [h3] at h
        simp at h
      | ok o =>
        simp only [h3] at h
        cases o with
        | none => simp at h
        | some qs => simp at h

lemma searchingNode_eq (env : Env) (st : ResearchState) (t : String)
    (h1 : st.topic = some t) (h2 : t ≠ "") (hq : st.queries.getD [] ≠ []) :
    searchingNode env st = .ok { st with
      results := some (combineResults st.results (searchBatch env (st.queries.getD [])))
      queries := some []
      iterationCount := some (st.iterationCount.getD 0 + 1) } := by
  simp only [searchingNode, h1]
  rw [if_neg h2, if_neg hq]

lemma searchingNode_err_noQueries (env : Env) (st : ResearchState) (t : String)
    (h1 : st.topic = some t) (h2 : t ≠ "") (hq : st.queries.getD [] = []) :
    searchingNode env st = .error .noQueries := by
  simp only [searchingNode, h1]
  rw [if_neg h2, if_pos hq]

lemma evaluatingNode_forced (env : Env) (st : ResearchState) (t : String)
    (rs : List QueryResults) (h1 : st.topic = some t) (h2 : t ≠ "")
    (h3 : st.results = some rs) (h4 : rs ≠ [])
    (h5 : MAX_ITERATIONS ≤ st.iterationCount.getD 0) :
    evaluatingNode env st = .ok { st with
      isComplete := some true
      filteredResults := some
        [{ query := t
           searchResults := padResults (filterSearchResults env t (flattenResults rs)) }]
      iterationCount := some (st.iterationCount.getD 0) } := by
  simp only [evaluatingNode, h1, h3]
  rw [if_neg h2, if_neg h4, if_pos h5]

lemma evaluatingNode_normal (env : Env) (st : ResearchState) (t : String)
    (rs : List QueryResults) (h1 : st.topic = some t) (h2 : t ≠ "")
    (h3 : st.results = some rs) (h4 : rs ≠ [])
    (h5 : ¬ MAX_ITERATIONS ≤ st.iterationCount.getD 0) :
    evaluatingNode env st = .ok { st with
      isComplete := some (evaluateCompleteness env t (flattenResults rs)).isComplete
      queries :=
        if (evaluateCompleteness env t (flattenResults rs)).isComplete then st.queries
        else some (evaluateCompleteness env t (flattenResults rs)).queries
      filteredResults := some
        [{ query := t
           searchResults := padResults (filterSearchResults env t (flattenResults rs)) }]
      iterationCount := some (st.iterationCount.getD 0) } := by
  simp only [evaluatingNode, h1, h3]
  rw [if_neg h2, if_neg h4, if_neg h5]

lemma writingNode_eq (env : Env) (st : ResearchState) (t : String)
    (fs : List QueryResults) (h1 : st.topic = some t) (h2 : t ≠ "")
    (h3 : st.filteredResults = some fs) (h4 : fs ≠ []) :
    writingNode env st = (generateReport env t (flattenResults fs)).map (fun rep =>
      { st with report := some rep }) := by
  simp only [writingNode, h1, h3]
  rw [if_neg h2, if_neg h4]

lemma combineResults_ne_nil (old : Option (List QueryResults)) (fresh : List QueryResults)
    (h : fresh ≠ []) : combineResults old fresh ≠ [] := by
  cases old with
  | none => exact h
  | some rs =>
    by_cases hrs : rs = []
    · rw [combineResults, if_pos hrs]
      exact h
    · rw [combineResults, if_neg hrs]
      intro hc
      rcases List.append_eq_nil.mp hc with ⟨h1, _⟩
      exact hrs h1

lemma searchBatch_ne_nil (env : Env) (qs : List String) (h : qs ≠ []) :
    searchBatch env qs ≠ [] := by
  rw [searchBatch_eq_map]
  intro hc
  exact h (List.map_eq_nil_iff.mp hc)

lemma padResults_ne_nil (l : List SearchResult) : padResults l ≠ [] := by
  rw [padResults]
  by_cases h : l = []
  · rw [if_pos h]
    simp
  · rw [if_neg h]
    exact h

lemma routeAfterEvaluate_write (st : ResearchState) (h : st.isComplete = some true) :
    routeAfterEvaluate st = .Write := by
  simp [routeAfterEvaluate, h]

lemma routeAfterEvaluate_search (st : ResearchState) (h : st.isComplete = some false) :
    routeAfterEvaluate st = .Search := by
  simp [routeAfterEvaluate, h]

lemma stepNode_plan_ok (env : Env) (st st1 : ResearchState)
    (h : planingNode env st = .ok st1) :
    stepNode env .Plan st = .ok (.Search, st1) := by
  simp [stepNode, h, Except.map]

lemma stepNode_plan_err (env : Env) (st : ResearchState) (e : RunError)
    (h : planingNode env st = .error e) :
    stepNode env .Plan st = .error e := by
  simp [stepNode, h, Except.map]

lemma stepNode_search_ok (env : Env) (st st1 : ResearchState)
    (h : searchingNode env st = .ok st1) :
    stepNode env .Search st = .ok (.Evaluate, st1) := by
  simp [stepNode, h, Except.map]

lemma stepNode_search_err (env : Env) (st : ResearchState) (e : RunError)
    (h : searchingNode env st = .error e) :
    stepNode env .Search st = .error e := by
  simp [stepNode, h, Except.map]

lemma stepNode_evaluate_ok (env : Env) (st st1 : ResearchState)
    (h : evaluatingNode env st = .ok st1) :
    stepNode env .Evaluate st = .ok (routeAfterEvaluate st1, st1) := by
  simp [stepNode, h, Except.map]

lemma stepNode_write_ok (env : Env) (st st1 : ResearchState)
    (h : writingNode env st = .ok st1) :
    stepNode env .Write st = .ok (.Done, st1) := by
  simp [stepNode, h, Except.map]

lemma stepNode_write_err (env : Env) (st : ResearchState) (e : RunError)
    (h : writingNode env st = .error e) :
    stepNode env .Write st = .error e := by
  simp [stepNode, h, Except.map]

lemma runN_succ (env : Env) (n : Nat) (stage : Stage) (st : ResearchState) :
    runN env (n + 1) stage st
      = match stepNode env stage st with
        | .error e => .error e
        | .ok p => runN env n p.1 p.2 := rfl

lemma runN_ok_step (env : Env) (n : Nat) (stage : Stage) (st : ResearchState)
    (p : Stage × ResearchState) (h : stepNode env stage st = .ok p) :
    runN env (n + 1) stage st = runN env n p.1 p.2 := by
  rw [runN_succ, h]

lemma runN_error_step (env : Env) (n : Nat) (stage : Stage) (st : ResearchState)
    (e : RunError) (h : stepNode env stage st = .error e) :
    runN env (n + 1) stage st = .error e := by
  rw [runN_succ, h]

lemma runN_done (env : Env) :
    ∀ (n : Nat) (st : ResearchState), runN env n .Done st = .ok (.Done, st) := by
  intro n
  induction n with
  | zero =>
    intro st
    rfl
  | succ n ih =>
    intro st
    rw [runN_ok_step env n .Done st (.Done, st) rfl]
    exact ih st

lemma runN_add (env : Env) (m : Nat) :
    ∀ (n : Nat) (stage : Stage) (st : ResearchState),
      runN env (n + m) stage st
        = match runN env n stage st with
          | .error e => .error e
          | .ok p => runN env m p.1 p.2 := by
  intro n
  induction n with
  | zero =>
    intro stage st
    rw [Nat.zero_add]
    rfl
  | succ n ih =>
    intro stage st
    have e1 : n + 1 + m = (n + m) + 1 := by omega
    rw [e1, runN_succ, runN_succ]
    cases h : stepNode env stage st with
    | error e => rfl
    | ok p => exact ih p.1 p.2

lemma stepNode_plan_inv (env : Env) (st : ResearchState) (stage' : Stage)
    (st' : ResearchState) (h : stepNode env .Plan st = .ok (stage', st')) :
    stage' = .Search ∧ planingNode env st = .ok st' := by
  simp only [stepNode] at h
  cases hp : planingNode env st with
  | error e =>
    rw [hp] at h
    simp [Except.map] at h
  | ok s =>
    rw [hp] at h
    simp only [Except.map, Except.ok.injEq, Prod.mk.injEq] at h
    refine ⟨h.1.symm, ?_⟩
    rw [← h.2]

lemma stepNode_search_inv (env : Env) (st : ResearchState) (stage' : Stage)
    (st' : ResearchState) (h : stepNode env .Search st = .ok (stage', st')) :
    stage' = .Evaluate ∧ searchingNode env st = .ok st' := by
  simp only [stepNode] at h
  cases hp : searchingNode env st with
  | error e =>
    rw [hp] at h
    simp [Except.map] at h
  | ok s =>
    rw [hp] at h
    simp only [Except.map, Except.ok.injEq, Prod.mk.injEq] at h
    refine ⟨h.1.symm, ?_⟩
    rw [← h.2]

lemma stepNode_evaluate_inv (env : Env) (st : ResearchState) (stage' : Stage)
    (st' : ResearchState) (h : stepNode env .Evaluate st = .ok (stage', st')) :
    stage' = routeAfterEvaluate st' ∧ evaluatingNode env st = .ok st' := by
  simp only [stepNode] at h
  cases hp : evaluatingNode env st with
  | error e =>
    rw [hp] at h
    simp [Except.map] at h
  | ok s =>
    rw [hp] at h
    simp only [Except.map, Except.ok.injEq, Prod.mk.injEq] at h
    refine ⟨?_, ?_⟩
    · rw [← h.2]
      exact h.1.symm
    · rw [← h.2]

lemma stepNode_write_inv (env : Env) (st : ResearchState) (stage' : Stage)
    (st' : ResearchState) (h : stepNode env .Write st = .ok (stage', st')) :
    stage' = .Done ∧ writingNode env st = .ok st' := by
  simp only [stepNode] at h
  cases hp : writingNode env st with
  | error e =>
    rw [hp] at h
    simp [Except.map] at h
  | ok s =>
    rw [hp] at h
    simp only [Except.map, Except.ok.injEq, Prod.mk.injEq] at h
    refine ⟨h.1.symm, ?_⟩
    rw [← h.2]

lemma stepNode_done_inv (env : Env) (st : ResearchState) (stage' : Stage)
    (st' : ResearchState) (h : stepNode env .Done st = .ok (stage', st')) :
    stage' = .Done ∧ st' = st := by
  simp only [stepNode, Except.ok.injEq, Prod.mk.injEq] at h
  exact ⟨h.1.symm, h.2.symm⟩

lemma planingNode_count (env : Env) (st st' : ResearchState)
    (h : planingNode env st = .ok st') : st'.iterationCount = some 0 := by
  unfold planingNode at h
  cases ht : st.topic with
  | none => simp [ht] at h
  | some t =>
    simp only [ht] at h
    by_cases he : t = ""
    · rw [if_pos he] at h
      simp at h
    · rw [if_neg he] at h
      cases hp : generateResearchPlan env t with
      | error e =>
        rw [hp] at h
        simp [Except.map] at h
      | ok qs =>
        rw [hp] at h
        simp only [Except.map, Except.ok.injEq] at h
        rw [← h]

lemma searchingNode_count (env : Env) (st st' : ResearchState)
    (h : searchingNode env st = .ok st') :
    st'.iterationCount = some (st.iterationCount.getD 0 + 1) := by
  unfold searchingNode at h
  cases ht : st.topic with
  | none => simp [ht] at h
  | some t =>
    simp only [ht] at h
    by_cases he : t = ""
    · rw [if_pos he] at h
      simp at h
    · rw [if_neg he] at h
      by_cases hq : st.queries.getD [] = []
      · rw [if_pos hq] at h
        simp at h
      · rw [if_neg hq] at h
        simp only [Except.ok.injEq] at h
        rw [← h]

lemma evaluatingNode_count (env : Env) (st st' : ResearchState)
    (h : evaluatingNode env st = .ok st') :
    st'.iterationCount = some (st.iterationCount.getD 0)
    ∧ (MAX_ITERATIONS ≤ st.iterationCount.getD 0 → st'.isComplete = some true) := by
  unfold evaluatingNode at h
  cases ht : st.topic with
  | none => simp [ht] at h
  | some t =>
    simp only [ht] at h
    by_cases he : t = ""
    · rw [if_pos he] at h
      simp at h
    · rw [if_neg he] at h
      cases hr : st.results with
      | none => simp [hr] at h
      | some rs =>
        simp only [hr] at h
        by_cases hrs : rs = []
        · rw [if_pos hrs] at h
          simp at h
        · rw [if_neg hrs] at h
          by_cases hc : MAX_ITERATIONS ≤ st.iterationCount.getD 0
          · rw [if_pos hc] at h
            simp only [Except.ok.injEq] at h
            rw [← h]
            exact ⟨rfl, fun _ => rfl⟩
          · rw [if_neg hc] at h
            simp only [Except.ok.injEq] at h
            rw [← h]
            exact ⟨rfl, fun hcc => absurd hcc hc⟩

lemma writingNode_fields (env : Env) (st st' : ResearchState)
    (h : writingNode env st = .ok st') :
    st'.iterationCount = st.iterationCount ∧ st'.report.isSome = true := by
  unfold writingNode at h
  cases ht : st.topic with
  | none => simp [ht] at h
  | some t =>
    simp only [ht] at h
    by_cases he : t = ""
    · rw [if_pos he] at h
      simp at h
    · rw [if_neg he] at h
      cases hf : st.filteredResults with
      | none => simp [hf] at h
      | some fs =>
        simp only [hf] at h
        by_cases hfs : fs = []
        · rw [if_pos hfs] at h
          simp at h
        · rw [if_neg hfs] at h
          cases hw : generateReport env t (flattenResults fs) with
          | error e =>
            rw [hw] at h
            simp [Except.map] at h
          | ok rep =>
            rw [hw] at h
            simp only [Except.map, Except.ok.injEq] at h
            rw [← h]
            exact ⟨rfl, rfl⟩

lemma cntInv_le (stage : Stage) (st : ResearchState) (h : cntInv stage st) :
    st.iterationCount.getD 0 ≤ MAX_ITERATIONS := by
  cases stage <;> simp only [cntInv, MAX_ITERATIONS] at h ⊢ <;> omega

lemma stepNode_cntInv (env : Env) (stage : Stage) (st : ResearchState)
    (stage' : Stage) (st' : ResearchState)
    (hinv : cntInv stage st) (h : stepNode env stage st = .ok (stage', st')) :
    cntInv stage' st' := by
  cases stage with
  | Plan =>
    obtain ⟨hs, hp⟩ := stepNode_plan_inv env st stage' st' h
    subst hs
    have hc := planingNode_count env st st' hp
    simp [cntInv, hc, MAX_ITERATIONS]
  | Search =>
    obtain ⟨hs, hp⟩ := stepNode_search_inv env st stage' st' h
    subst hs
    have hc := searchingNode_count env st st' hp
    simp only [cntInv] at hinv ⊢
    rw [hc]
    simp only [Option.getD_some]
    omega
  | Evaluate =>
    obtain ⟨hs, hp⟩ := stepNode_evaluate_inv env st stage' st' h
    obtain ⟨hcnt, hforce⟩ := evaluatingNode_count env st st' hp
    simp only [cntInv] at hinv
    subst hs
    have h1 : st'.iterationCount.getD 0 ≤ MAX_ITERATIONS := by
      rw [hcnt]
      simpa using hinv
    by_cases hc : MAX_ITERATIONS ≤ st.iterationCount.getD 0
    · rw [routeAfterEvaluate_write st' (hforce hc)]
      exact h1
    · have h2 : st'.iterationCount.getD 0 + 1 ≤ MAX_ITERATIONS := by
        rw [hcnt]
        simp only [Option.getD_some]
        omega
      rw [routeAfterEvaluate]
      cases hic : st'.isComplete with
      | none => exact h2
      | some b =>
        cases b with
        | false =>
          simp only [Bool.false_eq_true, if_false]
          exact h2
        | true =>
          simp only [if_true]
          exact h1
  | Write =>
    obtain ⟨hs, hp⟩ := stepNode_write_inv env st stage' st' h
    subst hs
    obtain ⟨hcnt, _⟩ := writingNode_fields env st st' hp
    simp only [cntInv] at hinv ⊢
    rw [hcnt]
    exact hinv
  | Done =>
    obtain ⟨hs, hst⟩ := stepNode_done_inv env st stage' st' h
    subst hs
    subst hst
    exact hinv

lemma runN_cntInv (env : Env) :
    ∀ (n : Nat) (stage : Stage) (st : ResearchState) (stage' : Stage) (st' : ResearchState),
      cntInv stage st → runN env n stage st = .ok (stage', st') → cntInv stage' st' := by
  intro n
  induction n with
  | zero =>
    intro stage st stage' st' hinv h
    simp only [runN, Except.ok.injEq, Prod.mk.injEq] at h
    rw [← h.1, ← h.2]
    exact hinv
  | succ n ih =>
    intro stage st stage' st' hinv h
    rw [runN_succ] at h
    cases hs : stepNode env stage st with
    | error e =>
      rw [hs] at h
      simp at h
    | ok p =>
      rw [hs] at h
      exact ih p.1 p.2 stage' st' (stepNode_cntInv env stage st p.1 p.2 hinv (by rw [hs])) h

/-- C2: planingNode always initializes the iteration count to 0; searchingNode
always increments it by exactly one (regardless of the queries in the state, and
hence of the batch size); and in every state reachable from the initial state by
the workflow, the iteration count never exceeds MAX_ITERATIONS = 3. -/
theorem iteration_count_init_increment_bound :
    (∀ (env : Env) (st st' : ResearchState),
        planingNode env st = .ok st' → st'.iterationCount = some 0)
    ∧ (∀ (env : Env) (st st' : ResearchState),
        searchingNode env st = .ok st' →
        st'.iterationCount = some (st.iterationCount.getD 0 + 1))
    ∧ (∀ (env : Env) (t : String) (n : Nat) (stage : Stage) (st : ResearchState),
        runN env n .Plan (initState t) = .ok (stage, st) →
        st.iterationCount.getD 0 ≤ MAX_ITERATIONS) := by
  refine ⟨planingNode_count, searchingNode_count, ?_⟩
  intro env t n stage st h
  have hinv : cntInv .Plan (initState t) := rfl
  exact cntInv_le stage st (runN_cntInv env n .Plan (initState t) stage st hinv h)

/-- Witness for the C2 theorem at concrete inputs. -/
theorem iteration_count_init_increment_bound_witness :
    planingNode envLoop (initState "t") = .ok stPlanned
    ∧ stPlanned.iterationCount = some 0
    ∧ searchingNode envLoop stPlanned = .ok stSearched
    ∧ stSearched.iterationCount = some (stPlanned.iterationCount.getD 0 + 1)
    ∧ (initState "t").iterationCount.getD 0 ≤ MAX_ITERATIONS := by
  refine ⟨rfl, ?_, rfl, ?_, ?_⟩
  · exact iteration_count_init_increment_bound.1 envLoop (initState "t") stPlanned rfl
  · exact iteration_count_init_increment_bound.2.1 envLoop stPlanned stSearched rfl
  · exact iteration_count_init_increment_bound.2.2 envLoop "t" 0 .Plan (initState "t") rfl

/-! ## Lemmas about the Evaluate stage on zero accumulated results -/

lemma evaluateCompleteness_zero (env : Env) (t : String) :
    evaluateCompleteness env t []
      = { isComplete := false, queries := [t ++ " overview", t ++ " key aspects"] } := rfl

lemma filterSearchResults_nil (env : Env) (t : String) :
    filterSearchResults env t [] = [] := rfl

lemma append_ne_empty (t s : String) (hs : s.length ≠ 0) : t ++ s ≠ "" := by
  intro h
  have hl := congrArg String.length h
  rw [String.length_append] at hl
  simp at hl
  exact hs hl.2

/-- C7 (amended): whenever the Evaluate stage receives zero accumulated search
results while the iteration budget is not yet exhausted, it does not fail: it
returns isComplete = false together with exactly the two nonempty generic
fallback queries derived from the topic, and the placeholder filtered results.
(At the iteration cap the node instead forces isComplete = true; see the
counterexample.) -/
theorem evaluate_zero_results_fallback (env : Env) (st : ResearchState) (t : String)
    (rs : List QueryResults) (h1 : st.topic = some t) (h2 : t ≠ "")
    (h3 : st.results = some rs) (h4 : rs ≠ []) (h5 : flattenResults rs = [])
    (h6 : ¬ MAX_ITERATIONS ≤ st.iterationCount.getD 0) :
    evaluatingNode env st = .ok { st with
      isComplete := some false
      queries := some [t ++ " overview", t ++ " key aspects"]
      filteredResults := some [{ query := t, searchResults := [placeholderResult] }]
      iterationCount := some (st.iterationCount.getD 0) }
    ∧ t ++ " overview" ≠ "" ∧ t ++ " key aspects" ≠ ""
    ∧ ([t ++ " overview", t ++ " key aspects"] : List String).length = 2 := by
  refine ⟨?_, append_ne_empty t " overview" (by decide),
    append_ne_empty t " key aspects" (by decide), rfl⟩
  rw [evaluatingNode_normal env st t rs h1 h2 h3 h4 h6, h5, evaluateCompleteness_zero,
    filterSearchResults_nil]
  rfl

/-- Witness for the amended C7 theorem at a concrete input. -/
theorem evaluate_zero_results_fallback_witness :
    evaluatingNode env0 stZero = .ok { stZero with
      isComplete := some false
      queries := some ["t" ++ " overview", "t" ++ " key aspects"]
      filteredResults := some [{ query := "t", searchResults := [placeholderResult] }]
      iterationCount := some 0 }
    ∧ ("t" ++ " overview" : String) ≠ "" := by
  have h := evaluate_zero_results_fallback env0 stZero "t"
    [{ query := "q", searchResults := [] }] rfl (by decide) rfl (by simp) rfl (by decide)
  exact ⟨h.1, h.2.1⟩

/-- C7 (counterexample): at the iteration cap, the Evaluate stage receiving zero
accumulated search results returns isComplete = true (forced completion), not
isComplete = false with fallback queries, refuting the claim as stated for every
state entering Evaluate. -/
theorem evaluate_zero_results_at_cap_counterexample :
    (evaluatingNode env0 stCap).toOption.bind (fun s => s.isComplete) = some true
    ∧ (evaluatingNode env0 stCap).toOption.bind (fun s => s.isComplete) ≠ some false
    ∧ flattenResults [{ query := "q", searchResults := [] }] = [] := by
  refine ⟨rfl, by decide, rfl⟩

lemma searchingNode_run (env : Env) (st : ResearchState) (t : String)
    (h1 : st.topic = some t) (h2 : t ≠ "") (hq : st.queries.getD [] ≠ []) :
    ∃ st', searchingNode env st = .ok st'
      ∧ st'.topic = some t
      ∧ (∃ rs, st'.results = some rs ∧ rs ≠ [])
      ∧ st'.iterationCount = some (st.iterationCount.getD 0 + 1) := by
  refine ⟨_, searchingNode_eq env st t h1 h2 hq, h1, ⟨_, rfl, ?_⟩, rfl⟩
  exact combineResults_ne_nil _ _ (searchBatch_ne_nil env _ hq)

lemma evaluatingNode_run (env : Env) (st : ResearchState) (t : String)
    (h1 : st.topic = some t) (h2 : t ≠ "") (rs : List QueryResults)
    (h3 : st.results = some rs) (h4 : rs ≠ []) :
    ∃ st', evaluatingNode env st = .ok st'
      ∧ st'.topic = some t
      ∧ st'.iterationCount = some (st.iterationCount.getD 0)
      ∧ st'.filteredResults = some [filteredEntry env t rs]
      ∧ ((MAX_ITERATIONS ≤ st.iterationCount.getD 0 ∧ st'.isComplete = some true)
         ∨ (¬ MAX_ITERATIONS ≤ st.iterationCount.getD 0
            ∧ st'.isComplete = some (evaluateCompleteness env t (flattenResults rs)).isComplete
            ∧ ((evaluateCompleteness env t (flattenResults rs)).isComplete = false →
                st'.queries = some (evaluateCompleteness env t (flattenResults rs)).queries))) := by
  by_cases hc : MAX_ITERATIONS ≤ st.iterationCount.getD 0
  · exact ⟨_, evaluatingNode_forced env st t rs h1 h2 h3 h4 hc, h1, rfl, rfl,
      .inl ⟨hc, rfl⟩⟩
  · refine ⟨_, evaluatingNode_normal env st t rs h1 h2 h3 h4 hc, h1, rfl, rfl,
      .inr ⟨hc, rfl, ?_⟩⟩
    intro hfalse
    simp only [hfalse]
    rw [if_neg (by simp)]

lemma writingNode_run (env : Env) (st : ResearchState) (t : String)
    (fs : List QueryResults) (h1 : st.topic = some t) (h2 : t ≠ "")
    (h3 : st.filteredResults = some fs) (h4 : fs ≠ []) :
    (env.writeCall t (flattenResults fs) = .error ()
      ∧ writingNode env st = .error .writeServiceFailure)
    ∨ (∃ st', writingNode env st = .ok st'
        ∧ st'.report.isSome = true
        ∧ st'.iterationCount = st.iterationCount) := by
  rw [writingNode_eq env st t fs h1 h2 h3 h4]
  cases hw : env.writeCall t (flattenResults fs) with
  | error u =>
    left
    cases u
    refine ⟨rfl, ?_⟩
    simp only [generateReport, hw]
    rfl
  | ok txt =>
    right
    refine ⟨{ st with report := some { title := extractTitle t txt, content := txt } },
      ?_, rfl, rfl⟩
    simp only [generateReport, hw]
    rfl

/-- Termination of the Search-Evaluate loop for an arbitrary environment: from
the Search stage with d iterations of budget left, the run either finishes at
Done with a report, or fails with the no-queries guard or a writing-stage
service failure, within 2d+1 transitions. -/
lemma runLoop_terminates (env : Env) (t : String) (ht : t ≠ "") :
    ∀ (d : Nat) (st : ResearchState),
      st.topic = some t →
      st.iterationCount.getD 0 + d = MAX_ITERATIONS → 1 ≤ d →
      (∃ st', runN env (2 * d + 1) .Search st = .ok (.Done, st') ∧ st'.report.isSome = true)
      ∨ (∃ e, runN env (2 * d + 1) .Search st = .error e
          ∧ (e = RunError.noQueries ∨ e = RunError.writeServiceFailure)) := by
  intro d
  induction d with
  | zero =>
    intro st _ _ hd
    omega
  | succ dd ih =>
    intro st h1 hcnt _
    have e1 : 2 * (dd + 1) + 1 = (2 * dd + 1) + 1 + 1 := by ring
    rw [e1]
    by_cases hq : st.queries.getD [] = []
    · right
      refine ⟨.noQueries, ?_, .inl rfl⟩
      exact runN_error_step env _ .Search st _
        (stepNode_search_err env st _ (searchingNode_err_noQueries env st t h1 ht hq))
    · obtain ⟨st1, hs1, h1t, ⟨rs1, h1r, h1rs⟩, h1c⟩ := searchingNode_run env st t h1 ht hq
      rw [runN_ok_step env _ .Search st (.Evaluate, st1) (stepNode_search_ok env st st1 hs1)]
      obtain ⟨st2, hs2, h2t, h2c, h2f, hbranch⟩ :=
        evaluatingNode_run env st1 t h1t ht rs1 h1r h1rs
      have hc1 : st1.iterationCount.getD 0 = st.iterationCount.getD 0 + 1 := by
        rw [h1c]
        rfl
      have h2fs : ([filteredEntry env t rs1] : List QueryResults) ≠ [] := by simp
      rcases hbranch with ⟨hforce, hcomp⟩ | ⟨hnof, hcomp, hqf⟩
      · -- forced completion: route to Write
        rw [runN_ok_step env _ .Evaluate st1 (routeAfterEvaluate st2, st2)
            (stepNode_evaluate_ok env st1 st2 hs2), routeAfterEvaluate_write st2 hcomp]
        rcases writingNode_run env st2 t _ h2t ht h2f h2fs with ⟨_, hwerr⟩ | ⟨st3, hwok, hrep, _⟩
        · right
          refine ⟨.writeServiceFailure, ?_, .inr rfl⟩
          exact runN_error_step env _ .Write st2 _ (stepNode_write_err env st2 _ hwerr)
        · left
          refine ⟨st3, ?_, hrep⟩
          rw [runN_ok_step env _ .Write st2 (.Done, st3) (stepNode_write_ok env st2 st3 hwok)]
          exact runN_done env _ st3
      · cases hcp : (evaluateCompleteness env t (flattenResults rs1)).isComplete with
        | true =>
          have hcomp' : st2.isComplete = some true := by rw [hcomp, hcp]
          rw [runN_ok_step env _ .Evaluate st1 (routeAfterEvaluate st2, st2)
              (stepNode_evaluate_ok env st1 st2 hs2), routeAfterEvaluate_write st2 hcomp']
          rcases writingNode_run env st2 t _ h2t ht h2f h2fs with
            ⟨_, hwerr⟩ | ⟨st3, hwok, hrep, _⟩
          · right
            refine ⟨.writeServiceFailure, ?_, .inr rfl⟩
            exact runN_error_step env _ .Write st2 _ (stepNode_write_err env st2 _ hwerr)
          · left
            refine ⟨st3, ?_, hrep⟩
            rw [runN_ok_step env _ .Write st2 (.Done, st3) (stepNode_write_ok env st2 st3 hwok)]
            exact runN_done env _ st3
        | false =>
          have hcomp' : st2.isComplete = some false := by rw [hcomp, hcp]
          rw [runN_ok_step env _ .Evaluate st1 (routeAfterEvaluate st2, st2)
              (stepNode_evaluate_ok env st1 st2 hs2), routeAfterEvaluate_search st2 hcomp']
          have hdd : 1 ≤ dd := by
            rw [hc1] at hnof
            omega
          have hcnt2 : st2.iterationCount.getD 0 + dd = MAX_ITERATIONS := by
            rw [h2c]
            simp only [Option.getD_some]
            rw [hc1]
            omega
          exact ih st2 h2t hcnt2 hdd

/-- Variant of the loop lemma for environments whose evaluation never judges the
research complete and always supplies nonempty follow-up queries, with a working
writer: the run always finishes at Done through the forced-completion branch,
with the iteration counter equal to the cap. -/
lemma runLoop_forcedCompletion (env : Env) (t : String) (ht : t ≠ "")
    (hinc : ∀ (tp : String) (rs : List SearchResult),
      (evaluateCompleteness env tp rs).isComplete = false)
    (hqne : ∀ (tp : String) (rs : List SearchResult),
      (evaluateCompleteness env tp rs).queries ≠ [])
    (hwok : ∀ (tp : String) (rs : List SearchResult), ∃ txt, env.writeCall tp rs = .ok txt) :
    ∀ (d : Nat) (st : ResearchState),
      st.topic = some t →
      st.queries.getD [] ≠ [] →
      st.iterationCount.getD 0 + d = MAX_ITERATIONS → 1 ≤ d →
      ∃ st', runN env (2 * d + 1) .Search st = .ok (.Done, st')
        ∧ st'.iterationCount = some MAX_ITERATIONS
        ∧ st'.report.isSome = true := by
  intro d
  induction d with
  | zero =>
    intro st _ _ _ hd
    omega
  | succ dd ih =>
    intro st h1 hq hcnt _
    have e1 : 2 * (dd + 1) + 1 = (2 * dd + 1) + 1 + 1 := by ring
    rw [e1]
    obtain ⟨st1, hs1, h1t, ⟨rs1, h1r, h1rs⟩, h1c⟩ := searchingNode_run env st t h1 ht hq
    rw [runN_ok_step env _ .Search st (.Evaluate, st1) (stepNode_search_ok env st st1 hs1)]
    obtain ⟨st2, hs2, h2t, h2c, h2f, hbranch⟩ :=
      evaluatingNode_run env st1 t h1t ht rs1 h1r h1rs
    have hc1 : st1.iterationCount.getD 0 = st.iterationCount.getD 0 + 1 := by
      rw [h1c]
      rfl
    have h2fs : ([filteredEntry env t rs1] : List QueryResults) ≠ [] := by simp
    rcases hbranch with ⟨hforce, hcomp⟩ | ⟨hnof, hcomp, hqf⟩
    · -- forced completion at the cap
      rw [runN_ok_step env _ .Evaluate st1 (routeAfterEvaluate st2, st2)
          (stepNode_evaluate_ok env st1 st2 hs2), routeAfterEvaluate_write st2 hcomp]
      rcases writingNode_run env st2 t _ h2t ht h2f h2fs with ⟨hwerr, _⟩ | ⟨st3, hwok3, hrep, h3c⟩
      · obtain ⟨txt, htxt⟩ := hwok t (flattenResults [filteredEntry env t rs1])
        rw [htxt] at hwerr
        cases hwerr
      · refine ⟨st3, ?_, ?_, hrep⟩
        · rw [runN_ok_step env _ .Write st2 (.Done, st3) (stepNode_write_ok env st2 st3 hwok3)]
          exact runN_done env _ st3
        · rw [h3c, h2c, hc1]
          have : st.iterationCount.getD 0 + 1 = MAX_ITERATIONS := by
            rw [hc1] at hforce
            omega
          rw [this]
    · -- not at the cap: evaluation is incomplete by hypothesis, loop again
      have hcp : (evaluateCompleteness env t (flattenResults rs1)).isComplete = false :=
        hinc t (flattenResults rs1)
      have hcomp' : st2.isComplete = some false := by rw [hcomp, hcp]
      rw [runN_ok_step env _ .Evaluate st1 (routeAfterEvaluate st2, st2)
          (stepNode_evaluate_ok env st1 st2 hs2), routeAfterEvaluate_search st2 hcomp']
      have hdd : 1 ≤ dd := by
        rw [hc1] at hnof
        omega
      have hcnt2 : st2.iterationCount.getD 0 + dd = MAX_ITERATIONS := by
        rw [h2c]
        simp only [Option.getD_some]
        rw [hc1]
        omega
      have hq2 : st2.queries.getD [] ≠ [] := by
        rw [hqf hcp]
        simp only [Option.getD_some]
        exact hqne t (flattenResults rs1)
      exact ih st2 h2t hq2 hcnt2 hdd

/-- C1: at the iteration cap, the Evaluate stage forces completion.  First part:
for every state entering Evaluate with iterationCount at least MAX_ITERATIONS
(and passing the node's guards), the node returns isComplete = true built from
the filtered results, routes to Writing, and its result does not depend on the
evaluation-service components of the environment (the sufficiency judgment is
never consulted).  Second part: when the evaluation never judges the research
complete (and planning and writing work), the whole run ends at Done with
iterationCount = 3 and a report. -/
theorem forced_completion_at_cap :
    (∀ (env : Env) (st : ResearchState) (t : String) (rs : List QueryResults),
        st.topic = some t → t ≠ "" → st.results = some rs → rs ≠ [] →
        MAX_ITERATIONS ≤ st.iterationCount.getD 0 →
        ∃ st', evaluatingNode env st = .ok st'
          ∧ st'.isComplete = some true
          ∧ routeAfterEvaluate st' = .Write
          ∧ st'.iterationCount = some (st.iterationCount.getD 0)
          ∧ (∀ ec ep ej,
              evaluatingNode
                { env with evalCall := ec, evalParseCall := ep, evalJson := ej } st
                = evaluatingNode env st))
    ∧ (∀ (env : Env) (t : String) (qs0 : List String),
        t ≠ "" →
        (∀ (tp : String) (rs : List SearchResult),
          (evaluateCompleteness env tp rs).isComplete = false) →
        (∀ (tp : String) (rs : List SearchResult),
          (evaluateCompleteness env tp rs).queries ≠ []) →
        (∀ (tp : String) (rs : List SearchResult), ∃ txt, env.writeCall tp rs = .ok txt) →
        generateResearchPlan env t = .ok qs0 → qs0 ≠ [] →
        ∃ st', runN env 20 .Plan (initState t) = .ok (.Done, st')
          ∧ st'.iterationCount = some MAX_ITERATIONS
          ∧ st'.report.isSome = true) := by
  constructor
  · intro env st t rs h1 h2 h3 h4 h5
    refine ⟨_, evaluatingNode_forced env st t rs h1 h2 h3 h4 h5, rfl, ?_, rfl, ?_⟩
    · exact routeAfterEvaluate_write _ rfl
    · intro ec ep ej
      rw [evaluatingNode_forced env st t rs h1 h2 h3 h4 h5,
        evaluatingNode_forced { env with evalCall := ec, evalParseCall := ep, evalJson := ej }
          st t rs h1 h2 h3 h4 h5]
      rfl
  · intro env t qs0 ht hinc hqne hwok hp hq0
    have hpok : planingNode env (initState t) = .ok (afterPlan t qs0) := by
      rw [planingNode_eq env (initState t) t rfl ht, hp]
      rfl
    have h20 : runN env 20 .Plan (initState t) = runN env 19 .Search (afterPlan t qs0) := by
      rw [show (20 : Nat) = 19 + 1 from rfl]
      exact runN_ok_step env 19 .Plan (initState t) (.Search, afterPlan t qs0)
        (stepNode_plan_ok env _ _ hpok)
    have hloop := runLoop_forcedCompletion env t ht hinc hqne hwok 3 (afterPlan t qs0)
      rfl (by simpa [afterPlan] using hq0) rfl (by omega)
    obtain ⟨st', hrun, hcnt, hrep⟩ := hloop
    refine ⟨st', ?_, hcnt, hrep⟩
    rw [h20, show (19 : Nat) = 7 + 12 from rfl, runN_add env 12 7 .Search (afterPlan t qs0),
      hrun]
    exact runN_done env 12 st'

/-- Witness for the C1 theorem: the first part at a concrete capped state with a
failing environment, the second part at envLoop, whose evaluation never judges
the research complete. -/
theorem forced_completion_at_cap_witness :
    (∃ st', evaluatingNode env0 stCap = .ok st'
      ∧ st'.isComplete = some true
      ∧ routeAfterEvaluate st' = .Write
      ∧ st'.iterationCount = some (stCap.iterationCount.getD 0)
      ∧ (∀ ec ep ej,
          evaluatingNode
            { env0 with evalCall := ec, evalParseCall := ep, evalJson := ej } stCap
            = evaluatingNode env0 stCap))
    ∧ (∃ st', runN envLoop 20 .Plan (initState "t") = .ok (.Done, st')
        ∧ st'.iterationCount = some MAX_ITERATIONS
        ∧ st'.report.isSome = true) := by
  constructor
  · exact forced_completion_at_cap.1 env0 stCap "t" [{ query := "q", searchResults := [] }]
      rfl (by decide) rfl (by simp) (by decide)
  · refine forced_completion_at_cap.2 envLoop "t" ["q"] (by decide) ?_ ?_ ?_ rfl (by simp)
    · intro tp rs
      cases rs with
      | nil => rfl
      | cons a l => rfl
    · intro tp rs
      cases rs with
      | nil => exact List.cons_ne_nil _ _
      | cons a l => exact List.cons_ne_nil _ _
    · intro tp rs
      exact ⟨"# T", rfl⟩

/-- C3 (amended): with enough fuel for the bounded loop, every run either ends
at Done with a report, or fails with one of: the empty-topic input guard (and
then the topic really is empty), the no-queries guard (planning or follow-up
produced zero queries), or a failure of one of the unguarded Text Completion
awaits of the Plan stage or the Write stage.  Web Search Service failures and
unparsable responses inside the guarded Search and Evaluate paths never
propagate: no other error is possible, for any environment. -/
theorem run_error_characterization (env : Env) (t : String) :
    (∃ st', runN env 20 .Plan (initState t) = .ok (.Done, st') ∧ st'.report.isSome = true)
    ∨ (∃ e, runN env 20 .Plan (initState t) = .error e
        ∧ (e = RunError.noTopicPlanning ∨ e = RunError.planServiceFailure
            ∨ e = RunError.planParseServiceFailure ∨ e = RunError.noQueries
            ∨ e = RunError.writeServiceFailure)
        ∧ (e = RunError.noTopicPlanning → t = "")) := by
  by_cases ht : t = ""
  · right
    refine ⟨.noTopicPlanning, ?_, .inl rfl, fun _ => ht⟩
    have hp : planingNode env (initState t) = .error .noTopicPlanning := by
      subst ht
      exact planingNode_err_empty env (initState "") rfl
    rw [show (20 : Nat) = 19 + 1 from rfl]
    exact runN_error_step env 19 .Plan (initState t) _ (stepNode_plan_err env _ _ hp)
  · cases hp : generateResearchPlan env t with
    | error e =>
      right
      have he := generateResearchPlan_error env t e hp
      have hperr : planingNode env (initState t) = .error e := by
        rw [planingNode_eq env (initState t) t rfl ht, hp]
        rfl
      refine ⟨e, ?_, ?_, ?_⟩
      · rw [show (20 : Nat) = 19 + 1 from rfl]
        exact runN_error_step env 19 .Plan (initState t) _ (stepNode_plan_err env _ _ hperr)
      · rcases he with h | h
        · exact .inr (.inl h)
        · exact .inr (.inr (.inl h))
      · intro hcontra
        rcases he with h | h <;> rw [h] at hcontra <;> simp at hcontra
    | ok qs0 =>
      have hpok : planingNode env (initState t) = .ok (afterPlan t qs0) := by
        rw [planingNode_eq env (initState t) t rfl ht, hp]
        rfl
      have h20 : runN env 20 .Plan (initState t) = runN env 19 .Search (afterPlan t qs0) := by
        rw [show (20 : Nat) = 19 + 1 from rfl]
        exact runN_ok_step env 19 .Plan (initState t) (.Search, afterPlan t qs0)
          (stepNode_plan_ok env _ _ hpok)
      rcases runLoop_terminates env t ht 3 (afterPlan t qs0) rfl rfl (by omega) with
        ⟨st', hrun, hrep⟩ | ⟨e, hrun, he⟩
      · left
        refine ⟨st', ?_, hrep⟩
        rw [h20, show (19 : Nat) = 7 + 12 from rfl,
          runN_add env 12 7 .Search (afterPlan t qs0), hrun]
        exact runN_done env 12 st'
      · right
        refine ⟨e, ?_, ?_, ?_⟩
        · rw [h20, show (19 : Nat) = 7 + 12 from rfl,
            runN_add env 12 7 .Search (afterPlan t qs0), hrun]
        · rcases he with h | h
          · exact .inr (.inr (.inr (.inl h)))
          · exact .inr (.inr (.inr (.inr h)))
        · intro hcontra
          rcases he with h | h <;> rw [h] at hcontra <;> simp at hcontra

/-- C3 (counterexample): with a nonempty topic and an environment whose
planning-stage Text Completion call rejects, the run fails with a service
failure, not an input error: service failures can propagate to the caller,
refuting the claim that run fails only with an input error for an empty topic. -/
theorem run_propagates_plan_failure_counterexample :
    runN envPlanFail 20 .Plan (initState "t") = .error .planServiceFailure
    ∧ ("t" : String) ≠ ""
    ∧ RunError.planServiceFailure ≠ RunError.noTopicPlanning := by
  refine ⟨rfl, by decide, by decide⟩

/-- Witness for the amended C3 theorem at a concrete environment and topic. -/
theorem run_error_characterization_witness :
    (∃ st', runN envLoop 20 .Plan (initState "t") = .ok (.Done, st')
      ∧ st'.report.isSome = true)
    ∨ (∃ e, runN envLoop 20 .Plan (initState "t") = .error e
        ∧ (e = RunError.noTopicPlanning ∨ e = RunError.planServiceFailure
            ∨ e = RunError.planParseServiceFailure ∨ e = RunError.noQueries
            ∨ e = RunError.writeServiceFailure)
        ∧ (e = RunError.noTopicPlanning → ("t" : String) = "")) :=
  run_error_characterization envLoop "t"

/-- Witness for the amended C5 theorem at a concrete environment and batch. -/
theorem search_sequential_execution_witness :
    searchTrace envLoop ["a", "b"] = ((["a", "b"] : List String).map queryEvents).flatten
    ∧ (searchBatch envLoop ["a", "b"]).map (fun b => b.query) = ["a", "b"]
    ∧ (searchTrace envLoop ["a", "b"]).length = 2 * (["a", "b"] : List String).length :=
  search_sequential_execution envLoop ["a", "b"]

/-- Witness for the C8 theorem at a concrete result list and key. -/
theorem dedup_first_seen_wins_and_idempotent_witness :
    (dedup rs5).filter (fun r => r.link == "l1") = (rs5.filter (fun r => r.link == "l1")).take 1
    ∧ dedup (dedup rs5) = dedup rs5
    ∧ ((dedup rs5).filter (fun r => r.link == "")).length ≤ 1 :=
  dedup_first_seen_wins_and_idempotent rs5 "l1"

end DeepResearch
